import Mathlib

/-
Verification of the filtering-and-aggregation pipeline of
src/components/dashboard/CohortAnalysisDashboard.tsx.

The embedding follows the TypeScript source:
  - interface StaffFilter / Filters / Customer / ChartDataPoint,
  - applyStaffFilter (the numeric staff-count predicate),
  - the filter loop of generateMockData (the deterministic filtering core,
    embedded as keepCustomer / applyFilters over a given record list),
  - calculateBayesianNormal (the smoothing formula),
  - chartData (grouping by the selected dimension in first-appearance
    order, as d3.group does, then a stable sort by descending accounts,
    as Array.prototype.sort with comparator b.accounts - a.accounts does).
JavaScript numbers are embedded as Int for counts and as Rat where the
source divides.
-/

inductive StaffOperator where
  | gte
  | gt
  | lte
  | lt
  | eq
  | between
deriving DecidableEq, Repr

structure StaffFilter where
  operator : StaffOperator
  value1 : Int
  value2 : Option Int
deriving DecidableEq, Repr

structure Filters where
  startDate : String
  endDate : String
  professions : List String
  countries : List String
  memberships : List String
  staffFilter : StaffFilter
deriving DecidableEq, Repr

structure Customer where
  appointyId : String
  userName : String
  businessName : String
  profession : String
  country : String
  membership : String
  staffCount : Int
  monthlyAppointmentCount : Int
  validTill : String
deriving DecidableEq, Repr

structure ChartDataPoint where
  category : String
  appointments : Int
  accounts : Nat
  bayesianNormal : ℚ
  customers : List Customer
deriving DecidableEq, Repr

inductive ViewMode where
  | profession
  | membership
  | country
deriving DecidableEq, Repr

/-- Numeric staff-count predicate, from applyStaffFilter in the source.
The switch covers all six operators of the closed union type, so the
default branch of the source is unreachable and has no counterpart here. -/
def applyStaffFilter (staffCount : Int) (filter : StaffFilter) : Bool :=
  match filter.operator with
  | .gte => decide (staffCount ≥ filter.value1)
  | .gt => decide (staffCount > filter.value1)
  | .lte => decide (staffCount ≤ filter.value1)
  | .lt => decide (staffCount < filter.value1)
  | .eq => decide (staffCount = filter.value1)
  | .between =>
    match filter.value2 with
    | some v2 => decide (staffCount ≥ filter.value1) && decide (staffCount ≤ v2)
    | none => decide (staffCount ≥ filter.value1)

/-- One record survives the filter loop of generateMockData: each of the
four continue statements of the source becomes one early false branch. -/
def keepCustomer (filters : Filters) (customer : Customer) : Bool :=
  if decide (filters.professions.length > 0) && !(filters.professions.contains customer.profession) then false
  else if decide (filters.countries.length > 0) && !(filters.countries.contains customer.country) then false
  else if decide (filters.memberships.length > 0) && !(filters.memberships.contains customer.membership) then false
  else if !(applyStaffFilter customer.staffCount filters.staffFilter) then false
  else true

/-- The filtering core of generateMockData applied to a given record
list: records are pushed in order iff no continue branch fires. -/
def applyFilters (filters : Filters) (customers : List Customer) : List Customer :=
  customers.filter (keepCustomer filters)

/-- From calculateBayesianNormal in the source:
(appointments + prior) / (accounts + priorCount) with prior = 20 and
priorCount = 5. -/
def calculateBayesianNormal (appointments : ℚ) (accounts : ℚ) : ℚ :=
  let prior : ℚ := 20
  let priorCount : ℚ := 5
  (appointments + prior) / (accounts + priorCount)

/-- The grouping key selected by the view mode, from the d3.group callback
in chartData. The default branch of the source switch is unreachable for
the closed union type. -/
def keyOf (viewMode : ViewMode) (d : Customer) : String :=
  match viewMode with
  | .profession => d.profession
  | .membership => d.membership
  | .country => d.country

/-- Helper for firstDedup: keeps the keys not seen yet, in order. -/
def firstDedupAux {α : Type} [DecidableEq α] (seen : List α) : List α → List α
  | [] => []
  | k :: ks => if k ∈ seen then firstDedupAux seen ks else k :: firstDedupAux (k :: seen) ks

/-- Keys in order of first appearance: the key order of a d3.group map. -/
def firstDedup {α : Type} [DecidableEq α] (l : List α) : List α :=
  firstDedupAux [] l

/-- The members of one group: a d3.group bucket holds the input records
with the given key, in input order. -/
def groupCustomers (viewMode : ViewMode) (customers : List Customer) (category : String) :
    List Customer :=
  customers.filter (fun d => keyOf viewMode d == category)

/-- One aggregate row, from the Array.from body in chartData. -/
def makeRow (viewMode : ViewMode) (customers : List Customer) (category : String) :
    ChartDataPoint :=
  { category := category
    appointments := ((groupCustomers viewMode customers category).map
      (fun c => c.monthlyAppointmentCount)).sum
    accounts := (groupCustomers viewMode customers category).length
    bayesianNormal := calculateBayesianNormal
      ((((groupCustomers viewMode customers category).map
        (fun c => c.monthlyAppointmentCount)).sum : Int) : ℚ)
      (((groupCustomers viewMode customers category).length : Nat) : ℚ)
    customers := groupCustomers viewMode customers category }

/-- The sort key of chartData: the comparator b.accounts - a.accounts
orders rows by descending accounts. -/
def accountsDesc (a b : ChartDataPoint) : Prop :=
  b.accounts ≤ a.accounts

instance : DecidableRel accountsDesc :=
  fun a b => inferInstanceAs (Decidable (b.accounts ≤ a.accounts))

instance : IsTotal ChartDataPoint accountsDesc :=
  ⟨fun a b => Nat.le_total b.accounts a.accounts⟩

instance : IsTrans ChartDataPoint accountsDesc :=
  ⟨fun _ _ _ hab hbc => Nat.le_trans hbc hab⟩

/-- chartData from the source: empty guard, d3.group in first-appearance
key order, one row per key, then a stable sort by descending accounts
(Array.prototype.sort is stable, and insertion sort is the stable sort). -/
def chartData (viewMode : ViewMode) (customers : List Customer) : List ChartDataPoint :=
  if customers.length = 0 then []
  else
    List.insertionSort accountsDesc
      ((firstDedup (customers.map (keyOf viewMode))).map (makeRow viewMode customers))

/-! Concrete records of the end-to-end scenario of the spec. -/

def doctor1 : Customer :=
  { appointyId := "APT0001", userName := "User 1", businessName := "Business 1"
    profession := "Doctor", country := "USA", membership := "Basic"
    staffCount := 5, monthlyAppointmentCount := 40, validTill := "2030-01-01" }

def doctor2 : Customer :=
  { appointyId := "APT0002", userName := "User 2", businessName := "Business 2"
    profession := "Doctor", country := "UK", membership := "Pro"
    staffCount := 15, monthlyAppointmentCount := 60, validTill := "2030-01-01" }

def nurse1 : Customer :=
  { appointyId := "APT0003", userName := "User 3", businessName := "Business 3"
    profession := "Nurse", country := "USA", membership := "Basic"
    staffCount := 8, monthlyAppointmentCount := 30, validTill := "2030-01-01" }

def records3 : List Customer := [doctor1, doctor2, nurse1]

def doctorFilter : Filters :=
  { startDate := "2024-01-01", endDate := "2024-12-31"
    professions := ["Doctor"], countries := [], memberships := []
    staffFilter := { operator := .gte, value1 := 0, value2 := none } }

/-! ### Claim C1 -/

/-- Claim C1, counterexample: the smoothing function of the source adds
the prior mean once, not priorMean * priorWeight, so a group with
memberCount = 5 and volumeSum = 100 gets score 12, not
(100 + 20 * 5) / (5 + 5) = 20 as the claim states. -/
theorem calculateBayesianNormal_not_weighted_prior :
    calculateBayesianNormal 100 5 ≠ (100 + 20 * 5) / (5 + 5) := by
  norm_num [calculateBayesianNormal]

/-- Claim C1, amended: every row of the aggregate output carries
smoothedScore = (volumeSum + priorMean) / (memberCount + priorWeight)
with priorMean = 20 and priorWeight = 5; the example group with
memberCount = 5 and volumeSum = 100 therefore scores 120 / 10 = 12. -/
theorem chartData_bayesianNormal_formula (viewMode : ViewMode) (l : List Customer)
    (r : ChartDataPoint) (hr : r ∈ chartData viewMode l) :
    r.bayesianNormal = ((r.appointments : ℚ) + 20) / ((r.accounts : ℚ) + 5) := by
  unfold chartData at hr
  split at hr
  · simp at hr
  · have hr' := (List.perm_insertionSort accountsDesc _).mem_iff.1 hr
    rcases List.mem_map.1 hr' with ⟨k, _, rfl⟩
    rfl

/-- Witness for C1 amended at a concrete row. -/
theorem chartData_bayesianNormal_formula_witness :
    (makeRow .profession [doctor1] "Doctor").bayesianNormal
      = (((makeRow .profession [doctor1] "Doctor").appointments : ℚ) + 20)
        / (((makeRow .profession [doctor1] "Doctor").accounts : ℚ) + 5) :=
  chartData_bayesianNormal_formula .profession [doctor1] _ (List.mem_singleton.2 rfl)

/-! ### Claim C4 -/

/-- Claim C4: the between operator with both thresholds present matches
iff threshold1 <= value <= threshold2 (both bounds inclusive); with the
second threshold absent it matches iff value >= threshold1. -/
theorem applyStaffFilter_between_semantics (s v1 v2 : Int) :
    (applyStaffFilter s { operator := .between, value1 := v1, value2 := some v2 } = true
      ↔ v1 ≤ s ∧ s ≤ v2)
    ∧ (applyStaffFilter s { operator := .between, value1 := v1, value2 := none } = true
      ↔ v1 ≤ s) := by
  simp [applyStaffFilter]

/-! ### Claim C8 -/

/-- Claim C8: aggregating the empty record list yields the empty output
for every grouping dimension, with no error. -/
theorem chartData_nil (viewMode : ViewMode) : chartData viewMode [] = [] := by
  simp [chartData]

/-! ### Claim C9 -/

/-- Claim C9: a malformed between filter whose second threshold is
strictly below the first matches no staff count at all (the predicate is
total, so no error is raised, and it returns false everywhere). -/
theorem applyStaffFilter_between_malformed_fail_closed (s v1 v2 : Int) (h : v2 < v1) :
    applyStaffFilter s { operator := .between, value1 := v1, value2 := some v2 } = false := by
  simp [applyStaffFilter]
  omega

/-- Witness for C9 at a concrete malformed filter. -/
theorem applyStaffFilter_between_malformed_fail_closed_witness :
    applyStaffFilter 3 { operator := .between, value1 := 1, value2 := some 0 } = false :=
  applyStaffFilter_between_malformed_fail_closed 3 1 0 (by decide)

/-! ### Properties of first-appearance deduplication -/

theorem mem_firstDedupAux {α : Type} [DecidableEq α] (a : α) :
    ∀ (l seen : List α), a ∈ firstDedupAux seen l ↔ a ∈ l ∧ a ∉ seen := by
  intro l
  induction l with
  | nil => intro seen; simp [firstDedupAux]
  | cons k ks ih =>
    intro seen
    by_cases hk : k ∈ seen
    · rw [firstDedupAux, if_pos hk, ih]
      constructor
      · rintro ⟨h1, h2⟩
        exact ⟨List.mem_cons_of_mem k h1, h2⟩
      · rintro ⟨h1, h2⟩
        rcases List.mem_cons.1 h1 with rfl | h1
        · exact absurd hk h2
        · exact ⟨h1, h2⟩
    · rw [firstDedupAux, if_neg hk, List.mem_cons, ih]
      constructor
      · rintro (rfl | ⟨h1, h2⟩)
        · exact ⟨List.mem_cons_self a ks, hk⟩
        · rw [List.mem_cons] at h2
          push_neg at h2
          exact ⟨List.mem_cons_of_mem k h1, h2.2⟩
      · rintro ⟨h1, h2⟩
        rw [List.mem_cons] at h1
        rcases h1 with rfl | h1
        · exact Or.inl rfl
        · by_cases hak : a = k
          · exact Or.inl hak
          · refine Or.inr ⟨h1, ?_⟩
            rw [List.mem_cons]
            push_neg
            exact ⟨hak, h2⟩

theorem mem_firstDedup {α : Type} [DecidableEq α] (l : List α) (a : α) :
    a ∈ firstDedup l ↔ a ∈ l := by
  rw [firstDedup, mem_firstDedupAux]
  simp

theorem nodup_firstDedupAux {α : Type} [DecidableEq α] :
    ∀ (l seen : List α), (firstDedupAux seen l).Nodup := by
  intro l
  induction l with
  | nil => intro seen; simp [firstDedupAux]
  | cons k ks ih =>
    intro seen
    by_cases hk : k ∈ seen
    · rw [firstDedupAux, if_pos hk]
      exact ih seen
    · rw [firstDedupAux, if_neg hk]
      refine List.nodup_cons.2 ⟨?_, ih (k :: seen)⟩
      intro hmem
      have := (mem_firstDedupAux k ks (k :: seen)).1 hmem
      exact this.2 (List.mem_cons_self k seen)

theorem nodup_firstDedup {α : Type} [DecidableEq α] (l : List α) :
    (firstDedup l).Nodup :=
  nodup_firstDedupAux l []

theorem firstDedup_perm_of_mem_iff {α : Type} [DecidableEq α] (l l' : List α)
    (hmem : ∀ a, a ∈ l ↔ a ∈ l') : (firstDedup l).Perm (firstDedup l') :=
  (List.perm_ext_iff_of_nodup (nodup_firstDedup l) (nodup_firstDedup l')).2
    (fun a => by rw [mem_firstDedup, mem_firstDedup]; exact hmem a)

/-! ### Characterisation of the filter loop -/

theorem keepCustomer_iff (f : Filters) (c : Customer) :
    keepCustomer f c = true ↔
      (f.professions ≠ [] → c.profession ∈ f.professions) ∧
      (f.countries ≠ [] → c.country ∈ f.countries) ∧
      (f.memberships ≠ [] → c.membership ∈ f.memberships) ∧
      applyStaffFilter c.staffCount f.staffFilter = true := by
  rcases f with ⟨sd, ed, ps, cs, ms, sf⟩
  by_cases h1 : ps = [] <;> by_cases h2 : cs = [] <;> by_cases h3 : ms = [] <;>
    by_cases h4 : applyStaffFilter c.staffCount sf = true <;>
      simp [keepCustomer, h1, h2, h3, h4, List.length_pos, List.contains, List.elem_iff]

/-! ### Claim C3 -/

/-- Claim C3: the filter engine retains a record iff every categorical
dimension with a non-empty inclusion set contains the record's value (an
empty set matches everything) and the numeric staff predicate holds; a
non-matching record is simply dropped from the result. -/
theorem applyFilters_retains_iff (f : Filters) (l : List Customer) (c : Customer) :
    c ∈ applyFilters f l ↔
      c ∈ l ∧
      (f.professions ≠ [] → c.profession ∈ f.professions) ∧
      (f.countries ≠ [] → c.country ∈ f.countries) ∧
      (f.memberships ≠ [] → c.membership ∈ f.memberships) ∧
      applyStaffFilter c.staffCount f.staffFilter = true := by
  rw [applyFilters, List.mem_filter, keepCustomer_iff]

/-! ### Claim C7 -/

/-- Claim C7: a filter with all three categorical inclusion sets empty
and numeric operator gte with threshold 0 keeps every record whose staff
count is at least 0, so it returns the record list unchanged. -/
theorem applyFilters_allmatch_identity (f : Filters) (l : List Customer)
    (hp : f.professions = []) (hc : f.countries = []) (hm : f.memberships = [])
    (hop : f.staffFilter.operator = .gte) (hv : f.staffFilter.value1 = 0)
    (hs : ∀ c ∈ l, 0 ≤ c.staffCount) :
    applyFilters f l = l := by
  rw [applyFilters]
  apply List.filter_eq_self.2
  intro c hcl
  refine (keepCustomer_iff f c).2 ⟨fun h => absurd hp h, fun h => absurd hc h,
    fun h => absurd hm h, ?_⟩
  rw [applyStaffFilter, hop, hv]
  simpa using hs c hcl

/-- Witness for C7 at the concrete three-record population. -/
theorem applyFilters_allmatch_identity_witness :
    applyFilters
      { startDate := "", endDate := "", professions := [], countries := [], memberships := []
        staffFilter := { operator := .gte, value1 := 0, value2 := none } }
      records3 = records3 :=
  applyFilters_allmatch_identity _ records3 rfl rfl rfl rfl rfl (by decide)

/-! ### Claim C2 -/

/-- Claim C2, counterexample: in the end-to-end Doctor scenario the
produced smoothed score is 120 / 7 (about 17.14), not
(100 + 100) / (2 + 5) as the claim computes it. -/
theorem endToEnd_smoothedScore_counterexample :
    (chartData .profession (applyFilters doctorFilter records3)).map
        (fun r => r.bayesianNormal) = [120 / 7]
    ∧ (120 / 7 : ℚ) ≠ (100 + 100) / (2 + 5) := by
  constructor
  · rw [show (chartData .profession (applyFilters doctorFilter records3)).map
        (fun r => r.bayesianNormal)
        = [calculateBayesianNormal ((100 : Int) : ℚ) ((2 : Nat) : ℚ)] from rfl]
    norm_num [calculateBayesianNormal]
  · norm_num

/-- Claim C2, amended: the filtered and aggregated Doctor scenario yields
exactly one row with category Doctor, memberCount 2, volumeSum 100 and
derived rate 100 / 2 = 50, but its smoothed score is
(100 + 20) / (2 + 5) = 120 / 7, about 17.14, not 28.57. -/
theorem endToEnd_doctor_scenario :
    chartData .profession (applyFilters doctorFilter records3)
      = [{ category := "Doctor", appointments := 100, accounts := 2,
           bayesianNormal := 120 / 7, customers := [doctor1, doctor2] }]
    ∧ ((100 : ℚ) / 2 = 50) := by
  constructor
  · have hb : (makeRow .profession [doctor1, doctor2] "Doctor").bayesianNormal = 120 / 7 := by
      rw [show (makeRow .profession [doctor1, doctor2] "Doctor").bayesianNormal
          = calculateBayesianNormal ((100 : Int) : ℚ) ((2 : Nat) : ℚ) from rfl]
      norm_num [calculateBayesianNormal]
    calc chartData .profession (applyFilters doctorFilter records3)
        = [{ category := "Doctor", appointments := 100, accounts := 2,
             bayesianNormal := (makeRow .profession [doctor1, doctor2] "Doctor").bayesianNormal,
             customers := [doctor1, doctor2] }] := rfl
      _ = [{ category := "Doctor", appointments := 100, accounts := 2,
             bayesianNormal := 120 / 7, customers := [doctor1, doctor2] }] := by rw [hb]
  · norm_num

/-! ### Claim C5 -/

/-- Claim C5, counterexample: with one Nurse record before one Doctor
record the two groups are tied at one member each, and the stable sort
leaves Nurse before Doctor, so the output is not ordered by category
label ascending within ties. -/
theorem chartData_tiebreak_counterexample :
    ¬ List.Pairwise
        (fun a b => b.accounts < a.accounts ∨ (a.accounts = b.accounts ∧ a.category < b.category))
        (chartData .profession [nurse1, doctor1]) := by
  intro h
  rw [show chartData .profession [nurse1, doctor1]
      = [makeRow .profession [nurse1, doctor1] "Nurse",
         makeRow .profession [nurse1, doctor1] "Doctor"] from rfl] at h
  rcases List.pairwise_cons.1 h with ⟨h1, _⟩
  rcases h1 _ (List.mem_singleton.2 rfl) with h2 | ⟨_, h3⟩
  · revert h2
    decide
  · rw [show (makeRow .profession [nurse1, doctor1] "Nurse").category = "Nurse" from rfl,
        show (makeRow .profession [nurse1, doctor1] "Doctor").category = "Doctor" from rfl,
        String.lt_iff_toList_lt] at h3
    revert h3
    decide

/-- Claim C5, amended: the output rows are sorted by descending member
count; rows with equal member counts keep the first-appearance order of
their categories in the input (stable sort), not ascending label order. -/
theorem chartData_sorted_by_accounts_desc (viewMode : ViewMode) (l : List Customer) :
    List.Pairwise (fun a b => b.accounts ≤ a.accounts) (chartData viewMode l) := by
  rw [chartData]
  split
  · exact List.Pairwise.nil
  · exact List.sorted_insertionSort accountsDesc _

/-! ### Claim C6 -/

/-- Claim C6, counterexample: the two-record population and its swap are
permutations of each other, yet the aggregate row orders differ, because
the two groups are tied at one member and the stable sort keeps their
first-appearance order. -/
theorem chartData_perm_order_counterexample :
    ([nurse1, doctor1] : List Customer).Perm [doctor1, nurse1]
    ∧ (chartData .profession [nurse1, doctor1]).map (fun r => r.category)
      ≠ (chartData .profession [doctor1, nurse1]).map (fun r => r.category) := by
  constructor
  · exact List.Perm.swap doctor1 nurse1 []
  · rw [show (chartData .profession [nurse1, doctor1]).map (fun r => r.category)
        = ["Nurse", "Doctor"] from rfl,
      show (chartData .profession [doctor1, nurse1]).map (fun r => r.category)
        = ["Doctor", "Nurse"] from rfl]
    decide

/-- Claim C6, amended: aggregating a permuted copy yields the same
multiset of (category, memberCount) rows, each output sorted by
descending member count; only the relative order of tied rows can
differ, following first-appearance order. -/
theorem chartData_perm_pairs (viewMode : ViewMode) (l l' : List Customer) (h : l.Perm l') :
    ((chartData viewMode l).map (fun r => (r.category, r.accounts))).Perm
      ((chartData viewMode l').map (fun r => (r.category, r.accounts))) := by
  rw [chartData, chartData]
  by_cases h0 : l.length = 0
  · have h0' : l'.length = 0 := by rw [← h.length_eq]; exact h0
    rw [if_pos h0, if_pos h0']
  · have h0' : ¬ l'.length = 0 := by rw [← h.length_eq]; exact h0
    rw [if_neg h0, if_neg h0']
    refine ((List.perm_insertionSort accountsDesc _).map _).trans
      (List.Perm.trans ?_ (((List.perm_insertionSort accountsDesc _).map _).symm))
    rw [List.map_map, List.map_map]
    have hfun : ((fun r : ChartDataPoint => (r.category, r.accounts)) ∘ makeRow viewMode l)
        = ((fun r : ChartDataPoint => (r.category, r.accounts)) ∘ makeRow viewMode l') := by
      funext k
      show (k, (List.filter (fun d => keyOf viewMode d == k) l).length)
        = (k, (List.filter (fun d => keyOf viewMode d == k) l').length)
      rw [(h.filter (fun d => keyOf viewMode d == k)).length_eq]
    rw [hfun]
    exact (firstDedup_perm_of_mem_iff _ _
      (fun a => (h.map (keyOf viewMode)).mem_iff)).map _

/-- Witness for C6 amended at the swapped two-record population. -/
theorem chartData_perm_pairs_witness :
    ((chartData .profession [nurse1, doctor1]).map (fun r => (r.category, r.accounts))).Perm
      ((chartData .profession [doctor1, nurse1]).map (fun r => (r.category, r.accounts))) :=
  chartData_perm_pairs .profession [nurse1, doctor1] [doctor1, nurse1]
    (List.Perm.swap doctor1 nurse1 [])

/-! ### Counting helpers for the partition property -/

theorem sum_map_add_nat {α : Type} (f g : α → ℕ) (l : List α) :
    (l.map (fun x => f x + g x)).sum = (l.map f).sum + (l.map g).sum := by
  induction l with
  | nil => simp
  | cons a l ih =>
    simp only [List.map_cons, List.sum_cons, ih]
    omega

theorem sum_map_indicator_eq_zero {α : Type} [DecidableEq α] (a : α) (ks : List α)
    (h : a ∉ ks) : (ks.map (fun k => if a = k then (1 : ℕ) else 0)).sum = 0 := by
  induction ks with
  | nil => simp
  | cons k ks ih =>
    rw [List.mem_cons] at h
    push_neg at h
    simp [h.1, ih h.2]

theorem sum_map_indicator_eq_one {α : Type} [DecidableEq α] (a : α) (ks : List α)
    (hnd : ks.Nodup) (h : a ∈ ks) :
    (ks.map (fun k => if a = k then (1 : ℕ) else 0)).sum = 1 := by
  induction ks with
  | nil => simp at h
  | cons k ks ih =>
    rcases List.nodup_cons.1 hnd with ⟨hk, hnd2⟩
    by_cases hak : a = k
    · subst hak
      simp [sum_map_indicator_eq_zero a ks hk]
    · rcases List.mem_cons.1 h with rfl | h2
      · exact absurd rfl hak
      · simp [hak, ih hnd2 h2]

theorem countP_decide_eq_one {α : Type} [DecidableEq α] (a : α) :
    ∀ ks : List α, ks.Nodup → a ∈ ks → (ks.countP (fun k => decide (a = k))) = 1 := by
  intro ks
  induction ks with
  | nil =>
    intro _ h
    simp at h
  | cons k ks ih =>
    intro hnd h
    rcases List.nodup_cons.1 hnd with ⟨hk, hnd2⟩
    rw [List.countP_cons]
    by_cases hak : a = k
    · subst hak
      rw [List.countP_eq_zero.2 ?_]
      · simp
      · intro b hb
        simp only [decide_eq_true_eq]
        rintro rfl
        exact hk hb
    · rcases List.mem_cons.1 h with rfl | h2
      · exact absurd rfl hak
      · simp [hak, ih hnd2 h2]

theorem sum_group_lengths (key : Customer → String) (l : List Customer) :
    ∀ ks : List String, ks.Nodup → (∀ c ∈ l, key c ∈ ks) →
      (ks.map (fun k => (l.filter (fun c => key c == k)).length)).sum = l.length := by
  induction l with
  | nil =>
    intro ks _ _
    simp
  | cons c l ih =>
    intro ks hnd hcov
    have hstep : ∀ k ∈ ks, ((c :: l).filter (fun x => key x == k)).length
        = (if key c = k then 1 else 0) + (l.filter (fun x => key x == k)).length := by
      intro k _
      rw [List.filter_cons]
      by_cases h : key c = k
      · simp [h]
        omega
      · simp [h]
    rw [List.map_congr_left hstep, sum_map_add_nat]
    rw [sum_map_indicator_eq_one (key c) ks hnd (hcov c (List.mem_cons_self c l))]
    rw [ih ks hnd (fun x hx => hcov x (List.mem_cons_of_mem c hx))]
    simp only [List.length_cons]
    omega

/-! ### Claim C10 -/

/-- Claim C10: for a non-empty input, the aggregate rows partition the
input records: each record lies in exactly one row member list, each row
has memberCount equal to the length of its member list and at least 1,
and the member counts sum to the input length. -/
theorem chartData_partition (viewMode : ViewMode) (l : List Customer) (hne : l ≠ []) :
    (∀ c ∈ l, (chartData viewMode l).countP (fun r => decide (c ∈ r.customers)) = 1) ∧
    (∀ r ∈ chartData viewMode l, r.accounts = r.customers.length ∧ 1 ≤ r.accounts) ∧
    ((chartData viewMode l).map (fun r => r.accounts)).sum = l.length := by
  have h0 : ¬ l.length = 0 := fun h => hne (List.eq_nil_of_length_eq_zero h)
  rw [chartData, if_neg h0]
  refine ⟨?_, ?_, ?_⟩
  · intro c hc
    rw [(List.perm_insertionSort accountsDesc _).countP_eq]
    rw [List.countP_map]
    have hpoint : ∀ k ∈ firstDedup (l.map (keyOf viewMode)),
        (((fun r : ChartDataPoint => decide (c ∈ r.customers)) ∘ makeRow viewMode l) k = true
          ↔ (fun k => decide (keyOf viewMode c = k)) k = true) := by
      intro k _
      show decide (c ∈ groupCustomers viewMode l k) = true ↔ decide (keyOf viewMode c = k) = true
      rw [decide_eq_true_eq, decide_eq_true_eq]
      simp only [groupCustomers, List.mem_filter]
      constructor
      · rintro ⟨_, h2⟩
        simpa using h2
      · intro hk
        exact ⟨hc, by simp [hk]⟩
    rw [List.countP_congr hpoint]
    exact countP_decide_eq_one (keyOf viewMode c) _ (nodup_firstDedup _)
      ((mem_firstDedup _ _).2 (List.mem_map_of_mem _ hc))
  · intro r hr
    have hr2 := (List.perm_insertionSort accountsDesc _).mem_iff.1 hr
    rcases List.mem_map.1 hr2 with ⟨k, hk, rfl⟩
    refine ⟨rfl, ?_⟩
    have hk2 := (mem_firstDedup _ _).1 hk
    rcases List.mem_map.1 hk2 with ⟨c, hcl, rfl⟩
    have hmem : c ∈ groupCustomers viewMode l (keyOf viewMode c) :=
      List.mem_filter.2 ⟨hcl, by simp⟩
    exact List.length_pos_of_mem hmem
  · rw [((List.perm_insertionSort accountsDesc _).map (fun r => r.accounts)).sum_eq]
    rw [List.map_map]
    exact sum_group_lengths (keyOf viewMode) l _ (nodup_firstDedup _)
      (fun c hc => (mem_firstDedup _ _).2 (List.mem_map_of_mem _ hc))

/-- Witness for C10 at the concrete three-record population. -/
theorem chartData_partition_witness :
    ((chartData .profession records3).map (fun r => r.accounts)).sum = records3.length :=
  (chartData_partition .profession records3 (by decide)).2.2
